import Mathlib

/-!
Verification of `scripts/db/validate_freeze_migration.py`.

The script has three components:
* `load_env` — parses a `KEY=VALUE` configuration file into a mapping;
* `call_rpc` — performs one HTTP POST against a fixed endpoint, returning
  `(status, body)` for any server response (HTTP errors included) and letting
  only transport-level failures escape;
* `main` — the report driver: a precondition check on the configuration
  followed by two classified RPC calls.

Python strings are modelled as `List Char` (`Str`); the network is modelled
as a function from the built request to a `NetResult` oracle; the console is
modelled as a list of abstract messages, one constructor per distinct print.
-/

namespace VFM

/-- Python strings, modelled as lists of characters. -/
abbrev Str := List Char

/-- Leading-whitespace strip (`str.lstrip()` with default argument). -/
def lstripWs (s : Str) : Str := s.dropWhile Char.isWhitespace

/-- Trailing-whitespace strip (`str.rstrip()` with default argument). -/
def rstripWs (s : Str) : Str := (s.reverse.dropWhile Char.isWhitespace).reverse

/-- `str.strip()`: drop leading and trailing whitespace. -/
def pyStrip (s : Str) : Str := rstripWs (lstripWs s)

/-- `str.rstrip('/')`: drop every trailing `'/'` character. -/
def rstripSlash (s : Str) : Str := (s.reverse.dropWhile (fun c => c == '/')).reverse

/-- `s.startswith('#')` for a single-character needle: test the first character. -/
def startsWithChar (s : Str) (c : Char) : Bool :=
  match s with
  | [] => false
  | a :: _ => a == c

/-- Python `pat in body` substring containment. -/
def hasSub : Str → Str → Bool
  | [], pat => pat.isEmpty
  | b :: rest, pat => pat.isPrefixOf (b :: rest) || hasSub rest pat

/-- `s.split(c, 1)` on a string known to contain `c`: split at the first
occurrence, returning the part before it and the part after it. -/
def splitFirst (c : Char) : Str → Str × Str
  | [] => ([], [])
  | a :: as =>
    if a == c then ([], as)
    else
      let p := splitFirst c as
      (a :: p.1, p.2)

/-- The configuration mapping built by `load_env`: an association list whose
keys are unique (`dict` semantics: lookups by key, later writes overwrite). -/
abbrev EnvMap := List (Str × Str)

/-- `env[k] = v` on a Python dict: replace any existing binding of `k`. -/
def dictInsert (env : EnvMap) (k v : Str) : EnvMap :=
  (k, v) :: env.filter (fun p => !(p.1 == k))

/-- The body of `load_env`'s loop for one line of the file:
`s = line.strip(); if not s or s.startswith('#') or '=' not in s: continue;
k, v = s.split('=', 1); env[k.strip()] = v.strip()`. -/
def processLine (line : Str) : Option (Str × Str) :=
  let s := pyStrip line
  if s.isEmpty || startsWithChar s '#' || !(s.contains '=') then none
  else
    let p := splitFirst '=' s
    some (pyStrip p.1, pyStrip p.2)

/-- One step of `load_env`'s fold over the file's lines. -/
def loadStep (env : EnvMap) (line : Str) : EnvMap :=
  match processLine line with
  | none => env
  | some kv => dictInsert env kv.1 kv.2

/-- `load_env(path)`: fold the per-line action over the file's lines
(the file text is taken already split into lines, as by `splitlines()`). -/
def load_env (lines : List Str) : EnvMap :=
  lines.foldl loadStep []

/-- A JSON scalar appearing in the RPC payloads. -/
inductive JVal where
  | num (n : Int)
  | str (s : Str)
  deriving DecidableEq

/-- The JSON payload object of one RPC call. -/
abbrev Payload := List (Str × JVal)

/-- The fixed path appended to the base URL by `call_rpc`. -/
def rpcPath : Str := "/rest/v1/rpc/record_test_and_sync_stats".toList

/-- `endpoint = url.rstrip('/') + '/rest/v1/rpc/record_test_and_sync_stats'`. -/
def endpoint (url : Str) : Str := rstripSlash url ++ rpcPath

/-- The HTTP POST request built by `call_rpc`: the endpoint, the two auth
headers, the content type, and the JSON payload. -/
structure Request where
  target : Str
  apikey : Str
  authorization : Str
  contentType : Str
  payload : Payload
  deriving DecidableEq

/-- Build the request exactly as `call_rpc` does. -/
def mkRequest (url key : Str) (payload : Payload) : Request :=
  ⟨endpoint url, key, "Bearer ".toList ++ key, "application/json".toList, payload⟩

/-- What `urllib.request.urlopen` does with one request:
* `ok status body` — it returns a response object (no exception);
* `httpError code body` — it raises `urllib.error.HTTPError` (the server
  responded with an HTTP error status);
* `transportError` — it raises a transport-level failure (connection refused,
  timeout, DNS failure: `URLError`/`socket.timeout`), which `call_rpc` does
  not catch. -/
inductive NetResult where
  | ok (status : Nat) (body : Str)
  | httpError (code : Nat) (body : Str)
  | transportError
  deriving DecidableEq

/-- The response body carried by a server response, if the server responded. -/
def NetResult.bodyOf : NetResult → Option Str
  | .ok _ b => some b
  | .httpError _ b => some b
  | .transportError => none

/-- `call_rpc(url, key, payload)` against a network oracle `net`:
the `try` block returns `(resp.status, body)`, the `except HTTPError` branch
returns `(e.code, body)`, and a transport failure propagates (modelled as
`Except.error ()`). -/
def call_rpc (net : Request → NetResult) (url key : Str) (payload : Payload) :
    Except Unit (Nat × Str) :=
  match net (mkRequest url key payload) with
  | .ok s b => .ok (s, b)
  | .httpError c b => .ok (c, b)
  | .transportError => .error ()

/-- The literal phrase inspected after Step 1. -/
def notFoundPhrase : Str :=
  "Could not find the function public.record_test_and_sync_stats".toList

/-- The literal phrase inspected after Step 2. -/
def guardPhrase : Str := "Cannot modify historical stats for date".toList

/-- The console lines `main` can print, one constructor per distinct `print`. -/
inductive Msg where
  | envNotFound
  | keysMissing
  | step1Header
  | httpStatus (status : Nat)
  | bodyDump (s : Str)
  | funcNotDeployed
  | endpointOk
  | step2Header
  | guardActive
  | guardInconclusive
  | inconclusiveReason
  deriving DecidableEq

/-- How a run of `main` ends: `normal` models returning from `main`,
`fault` models an uncaught exception propagating out of it. Both record the
lines printed before the end and how many times `call_rpc` was invoked. -/
inductive RunOutcome where
  | normal (output : List Msg) (calls : Nat)
  | fault (output : List Msg) (calls : Nat)
  deriving DecidableEq

/-- The lines printed during the run. -/
def RunOutcome.output : RunOutcome → List Msg
  | .normal o _ => o
  | .fault o _ => o

/-- How many times `call_rpc` was invoked during the run. -/
def RunOutcome.calls : RunOutcome → Nat
  | .normal _ c => c
  | .fault _ c => c

/-- Whether the run exited normally (no fault propagated out of `main`). -/
def RunOutcome.isNormal : RunOutcome → Bool
  | .normal _ _ => true
  | .fault _ _ => false

/-- Python truthiness of `env.get(...)`: `None` and the empty string are
falsy, any non-empty string is truthy. -/
def truthy : Option Str → Bool
  | none => false
  | some s => !s.isEmpty

/-- The `SUPABASE_URL` configuration key. -/
def urlKeyName : Str := "SUPABASE_URL".toList

/-- The `SUPABASE_ANON_KEY` configuration key. -/
def anonKeyName : Str := "SUPABASE_ANON_KEY".toList

/-- The Step 1 payload: a "today" update, no `p_test_date` field. -/
def step1Payload : Payload :=
  [("p_test_count".toList, .num 1),
   ("p_correct_count".toList, .num 1),
   ("p_points".toList, .num 1),
   ("p_timezone_offset_hours".toList, .num 8),
   ("p_client_date".toList, .str "2026-02-14".toList),
   ("p_expected_version".toList, .num 0)]

/-- The Step 2 payload: `p_test_date` and `p_client_date` one day earlier. -/
def step2Payload : Payload :=
  [("p_test_date".toList, .str "2026-02-13".toList),
   ("p_test_count".toList, .num 1),
   ("p_correct_count".toList, .num 1),
   ("p_points".toList, .num 1),
   ("p_timezone_offset_hours".toList, .num 8),
   ("p_client_date".toList, .str "2026-02-13".toList),
   ("p_expected_version".toList, .num 0)]

/-- `main()`. The filesystem is modelled by `envFile` (`none` when `.env`
does not exist, otherwise the file's lines) and the network by the oracle
`net`. Every `print` appends a `Msg`; an uncaught transport failure inside
`call_rpc` ends the run as `RunOutcome.fault`. -/
def main (envFile : Option (List Str)) (net : Request → NetResult) : RunOutcome :=
  match envFile with
  | none => .normal [Msg.envNotFound] 0
  | some lines =>
    let env := load_env lines
    let url := env.lookup urlKeyName
    let anon_key := env.lookup anonKeyName
    if !truthy url || !truthy anon_key then .normal [Msg.keysMissing] 0
    else
      let u := url.getD []
      let k := anon_key.getD []
      match call_rpc net u k step1Payload with
      | .error _ => .fault [Msg.step1Header] 1
      | .ok sb =>
        let out1 : List Msg :=
          [Msg.step1Header, Msg.httpStatus sb.1, Msg.bodyDump (sb.2.take 600),
           if hasSub sb.2 notFoundPhrase then Msg.funcNotDeployed else Msg.endpointOk,
           Msg.step2Header]
        match call_rpc net u k step2Payload with
        | .error _ => .fault out1 2
        | .ok sb2 =>
          .normal (out1 ++
            [Msg.httpStatus sb2.1, Msg.bodyDump (sb2.2.take 600)] ++
            (if hasSub sb2.2 guardPhrase then [Msg.guardActive]
             else [Msg.guardInconclusive, Msg.inconclusiveReason])) 2

/-- The configuration value looked up for `SUPABASE_URL`. -/
def cfgUrl (lines : List Str) : Option Str := (load_env lines).lookup urlKeyName

/-- The configuration value looked up for `SUPABASE_ANON_KEY`. -/
def cfgAnon (lines : List Str) : Option Str := (load_env lines).lookup anonKeyName

/-- Whether `main`'s precondition check passes: both keys present, non-empty. -/
def cfgReady (lines : List Str) : Bool := truthy (cfgUrl lines) && truthy (cfgAnon lines)

/-- The URL string `main` uses once the precondition check has passed. -/
def cfgUrlStr (lines : List Str) : Str := (cfgUrl lines).getD []

/-- The key string `main` uses once the precondition check has passed. -/
def cfgAnonStr (lines : List Str) : Str := (cfgAnon lines).getD []

/-- Concrete network oracle: the server always responds `200`. -/
def okNet : Request → NetResult := fun _ => NetResult.ok 200 "ok".toList

/-- Concrete network oracle: the server always responds with an HTTP error. -/
def httpErrNet : Request → NetResult := fun _ => NetResult.httpError 404 "missing".toList

/-- Concrete network oracle: every call fails at the transport level. -/
def transportNet : Request → NetResult := fun _ => NetResult.transportError

/-- A concrete well-formed configuration file. -/
def demoLines : List Str :=
  ["SUPABASE_URL=https://x.test".toList, "SUPABASE_ANON_KEY=k".toList]

/-- A concrete configuration file missing the `SUPABASE_ANON_KEY` key. -/
def missingKeyLines : List Str := ["SUPABASE_URL=https://x.test".toList]

/- Helper lemmas. -/

theorem rstripSlash_append_slash (u : Str) : rstripSlash (u ++ ['/']) = rstripSlash u := by
  simp [rstripSlash, List.reverse_append, List.dropWhile_cons]

theorem rstripSlash_append_replicate (u : Str) (n : Nat) :
    rstripSlash (u ++ List.replicate n '/') = rstripSlash u := by
  induction n with
  | zero => simp
  | succ n ih =>
    rw [List.replicate_succ', ← List.append_assoc, rstripSlash_append_slash, ih]

theorem splitFirst_append (c : Char) (k v : Str) (hk : k.contains c = false) :
    splitFirst c (k ++ c :: v) = (k, v) := by
  induction k with
  | nil => simp [splitFirst]
  | cons a k ih =>
    rw [List.contains_cons] at hk
    simp only [Bool.or_eq_false_iff] at hk
    have ha : (a == c) = false := by
      rcases h : a == c with _ | _
      · rfl
      · exact absurd (by simpa [eq_comm] using (beq_iff_eq ..).1 h) (by simpa using hk.1)
    simp [splitFirst, ha, ih hk.2]

/- C1. -/

/-- C1: for every server response — a normal return from `urlopen` or a raised
`HTTPError` (4xx/5xx) — `call_rpc` returns the same `(status code, body text)`
shape, and only a transport-level failure escapes `call_rpc` as a distinct
failure rather than as a `(status, body)` result. -/
theorem call_rpc_result_shape :
    ∀ (net : Request → NetResult) (url key : Str) (p : Payload),
      (∀ s b, net (mkRequest url key p) = .ok s b → call_rpc net url key p = .ok (s, b)) ∧
      (∀ c b, net (mkRequest url key p) = .httpError c b → call_rpc net url key p = .ok (c, b)) ∧
      (net (mkRequest url key p) = .transportError → call_rpc net url key p = .error ()) := by
  intro net url key p
  refine ⟨?_, ?_, ?_⟩ <;> intros <;> simp [call_rpc, *]

/-- Witness for C1 at concrete inputs: an HTTP 404 error is converted into a
`(404, body)` result, while a transport failure escapes as a failure. -/
theorem call_rpc_result_shape_witness :
    call_rpc httpErrNet "https://x.test".toList "k".toList step1Payload
      = .ok (404, "missing".toList) ∧
    call_rpc transportNet "https://x.test".toList "k".toList step1Payload = .error () :=
  ⟨(call_rpc_result_shape httpErrNet "https://x.test".toList "k".toList step1Payload).2.1
      404 "missing".toList rfl,
   (call_rpc_result_shape transportNet "https://x.test".toList "k".toList step1Payload).2.2 rfl⟩

/- C6. -/

/-- C6: the endpoint built by `call_rpc` from a base URL and from the same URL
with a trailing slash appended are identical, and both equal the slash-stripped
base followed by `/rest/v1/rpc/record_test_and_sync_stats`; in particular
`https://x.test` and `https://x.test/` both yield
`https://x.test/rest/v1/rpc/record_test_and_sync_stats`. -/
theorem endpoint_trailing_slash :
    (∀ u : Str, endpoint (u ++ ['/']) = endpoint u ∧
        endpoint (u ++ ['/']) = rstripSlash u ++ rpcPath ∧
        endpoint u = rstripSlash u ++ rpcPath) ∧
    endpoint "https://x.test".toList
      = "https://x.test/rest/v1/rpc/record_test_and_sync_stats".toList ∧
    endpoint "https://x.test/".toList
      = "https://x.test/rest/v1/rpc/record_test_and_sync_stats".toList := by
  refine ⟨fun u => ?_, by decide, by decide⟩
  simp [endpoint, rstripSlash_append_slash]

/- C10. -/

/-- C10: endpoint construction strips all trailing slashes, not only one: base
URLs differing only in the number of trailing `'/'` characters yield the same
endpoint (e.g. `https://x.test`, `https://x.test/`, `https://x.test//`). -/
theorem endpoint_rstrip_all :
    (∀ (u : Str) (n m : Nat),
        endpoint (u ++ List.replicate n '/') = endpoint (u ++ List.replicate m '/')) ∧
    endpoint "https://x.test".toList = endpoint "https://x.test//".toList ∧
    endpoint "https://x.test/".toList = endpoint "https://x.test//".toList := by
  refine ⟨fun u n m => ?_, by decide, by decide⟩
  simp [endpoint, rstripSlash_append_replicate]

/- C9. -/

/-- C9: a line whose trimmed form begins with `'='` is not skipped by
`load_env`: its per-line action stores the empty string as a key, bound to the
trimmed text after the first `'='`, so the mapping can hold an empty key. -/
theorem load_env_empty_key :
    ∀ (line rest : Str) (env : EnvMap),
      pyStrip line = '=' :: rest →
      loadStep env line = dictInsert env [] (pyStrip rest) ∧
      (loadStep env line).lookup [] = some (pyStrip rest) := by
  intro line rest env h
  have hstep : loadStep env line = dictInsert env [] (pyStrip rest) := by
    have hsplit : splitFirst '=' ('=' :: rest) = ([], rest) := by simp [splitFirst]
    simp only [loadStep, processLine]
    rw [h, hsplit]
    simp [startsWithChar, pyStrip, lstripWs, rstripWs]
  refine ⟨hstep, ?_⟩
  rw [hstep]
  simp [dictInsert, List.lookup]

/-- Witness for C9: the line `=value` produces the binding `"" ↦ "value"`. -/
theorem load_env_empty_key_witness :
    loadStep [] "=value".toList = dictInsert [] [] (pyStrip "value".toList) ∧
    (loadStep [] "=value".toList).lookup [] = some (pyStrip "value".toList) :=
  load_env_empty_key "=value".toList "value".toList [] (by decide)

/- C3. -/

/-- C3: per-line behavior of `load_env`. A line whose trimmed form decomposes
as `k ++ '=' :: v` with no `'='` in `k` (a well-formed `KEY=VALUE` line, split
at the first `'='`) binds the trimmed key to the trimmed value; a line that is
empty after trimming, starts with `'#'`, or contains no `'='` leaves the
mapping unchanged. -/
theorem load_env_line_handling :
    ∀ (line : Str) (env : EnvMap),
      (∀ k v, pyStrip line = k ++ '=' :: v → k.contains '=' = false →
          startsWithChar (pyStrip line) '#' = false →
          loadStep env line = dictInsert env (pyStrip k) (pyStrip v)) ∧
      ((pyStrip line).isEmpty = true ∨ startsWithChar (pyStrip line) '#' = true ∨
          (pyStrip line).contains '=' = false →
        loadStep env line = env) := by
  intro line env
  constructor
  · intro k v hsplit hk hsh
    rw [hsplit] at hsh
    have hne : (k ++ '=' :: v).isEmpty = false := by cases k <;> simp [List.isEmpty]
    have hcont : (k ++ '=' :: v).contains '=' = true := by simp
    simp only [loadStep, processLine]
    rw [hsplit, splitFirst_append '=' k v hk]
    simp [hne, hsh, hcont]
  · intro hskip
    simp only [loadStep, processLine]
    rcases hskip with h | h | h
    · have h' : pyStrip line = [] := by simpa using h
      simp [h']
    · simp [h]
    · have h' : ¬ ('=' ∈ pyStrip line) := by simpa using h
      simp [h']

/-- Witness for C3: a padded `KEY = VAL UE` line binds `KEY ↦ VAL UE`, while a
comment line, a blank line and a line without `'='` contribute nothing. -/
theorem load_env_line_handling_witness :
    loadStep [] "  KEY = VAL UE  ".toList = [("KEY".toList, "VAL UE".toList)] ∧
    loadStep [] "# comment".toList = [] ∧
    loadStep [] "   ".toList = [] ∧
    loadStep [] "noequals".toList = [] := by
  refine ⟨?_, ?_, ?_, ?_⟩
  · rw [(load_env_line_handling "  KEY = VAL UE  ".toList []).1
      "KEY ".toList " VAL UE".toList (by decide) (by decide) (by decide)]
    decide
  · exact (load_env_line_handling "# comment".toList []).2 (by decide)
  · exact (load_env_line_handling "   ".toList []).2 (by decide)
  · exact (load_env_line_handling "noequals".toList []).2 (by decide)

/- C7 infrastructure. -/

/-- The `(trimmed key, trimmed value)` pairs of the well-formed lines of the
file, in file order. -/
def wfPairs (lines : List Str) : List (Str × Str) := lines.filterMap processLine

/-- The value of the last well-formed occurrence of key `k`, if any. -/
def lastValue (k : Str) (ps : List (Str × Str)) : Option Str :=
  (ps.reverse.find? (fun p => p.1 == k)).map Prod.snd

/-- Folding `dict` insertion over a list of pairs, starting from `env`. -/
def buildDict (ps : List (Str × Str)) (env : EnvMap) : EnvMap :=
  ps.foldl (fun e p => dictInsert e p.1 p.2) env

theorem beq_symm_str (a b : Str) : (a == b) = (b == a) := by
  simp only [beq_eq_decide]
  simp [decide_eq_decide, eq_comm]

theorem foldl_loadStep_eq (lines : List Str) :
    ∀ env : EnvMap, lines.foldl loadStep env = buildDict (wfPairs lines) env := by
  induction lines with
  | nil => intro env; rfl
  | cons l ls ih =>
    intro env
    rcases h : processLine l with _ | kv
    · rw [List.foldl_cons]
      have h1 : loadStep env l = env := by simp [loadStep, h]
      have h2 : wfPairs (l :: ls) = wfPairs ls := by
        simp [wfPairs, List.filterMap_cons, h]
      rw [h1, h2, ih env]
    · rw [List.foldl_cons]
      have h1 : loadStep env l = dictInsert env kv.1 kv.2 := by simp [loadStep, h]
      have h2 : wfPairs (l :: ls) = kv :: wfPairs ls := by
        simp [wfPairs, List.filterMap_cons, h]
      have h3 : buildDict (kv :: wfPairs ls) env
          = buildDict (wfPairs ls) (dictInsert env kv.1 kv.2) := rfl
      rw [h1, h2, h3]
      exact ih (dictInsert env kv.1 kv.2)

theorem lookup_filter_ne (env : EnvMap) (a k : Str) (h : (a == k) = false) :
    (env.filter (fun p => !(p.1 == k))).lookup a = env.lookup a := by
  induction env with
  | nil => rfl
  | cons p env ih =>
    obtain ⟨pk, pv⟩ := p
    cases hpk : pk == k
    · rw [List.filter_cons]
      simp only [hpk, Bool.not_false]
      rw [if_pos trivial, List.lookup_cons, List.lookup_cons]
      cases hap : a == pk
      · simpa using ih
      · simp
    · have hk' : pk = k := beq_iff_eq.1 hpk
      subst hk'
      rw [List.filter_cons]
      simp only [hpk, Bool.not_true]
      rw [if_neg (by simp), List.lookup_cons, h]
      simpa using ih

theorem lookup_dictInsert (env : EnvMap) (k v a : Str) :
    (dictInsert env k v).lookup a = if a == k then some v else env.lookup a := by
  simp only [dictInsert, List.lookup_cons]
  cases hak : a == k
  · simp [lookup_filter_ne env a k hak]
  · simp

theorem lookup_buildDict (ps : List (Str × Str)) :
    ∀ (env : EnvMap) (a : Str),
      (buildDict ps env).lookup a = (lastValue a ps).or (env.lookup a) := by
  induction ps with
  | nil => intro env a; simp [buildDict, lastValue]
  | cons p ps ih =>
    intro env a
    have hstep : buildDict (p :: ps) env = buildDict ps (dictInsert env p.1 p.2) := rfl
    rw [hstep, ih, lookup_dictInsert]
    have hl : lastValue a (p :: ps)
        = (lastValue a ps).or (if p.1 == a then some p.2 else none) := by
      simp only [lastValue, List.reverse_cons, List.find?_append]
      cases hf : p.1 == a <;> simp [List.find?, hf, Option.or]
      <;> cases (List.find? (fun q => q.1 == a) ps.reverse) <;> simp
    rw [hl, beq_symm_str a p.1]
    cases lastValue a ps <;> cases hf : p.1 == a <;> simp [Option.or, hf]

theorem lookup_eq_none_iff_keys (l : EnvMap) (a : Str) :
    l.lookup a = none ↔ a ∉ l.map Prod.fst := by
  induction l with
  | nil => simp [List.lookup]
  | cons p l ih =>
    obtain ⟨pk, pv⟩ := p
    rw [List.map_cons, List.mem_cons]
    cases h : a == pk
    · have hne : a ≠ pk := fun he => by subst he; simp at h
      rw [List.lookup_cons, h]
      simp [hne, ih]
    · have he : a = pk := beq_iff_eq.1 h
      rw [List.lookup_cons, h]
      simp [he]

theorem lastValue_eq_none_iff_keys (ps : List (Str × Str)) (a : Str) :
    lastValue a ps = none ↔ a ∉ ps.map Prod.fst := by
  have hmap : ∀ o : Option (Str × Str), o.map Prod.snd = none ↔ o = none := by
    intro o; cases o <;> simp
  rw [lastValue, hmap, List.find?_eq_none]
  constructor
  · intro h hmem
    obtain ⟨p, hp, hfst⟩ := List.mem_map.1 hmem
    exact h p (List.mem_reverse.2 hp) (by simp [hfst])
  · intro h p hp hbeq
    exact h (List.mem_map.2 ⟨p, List.mem_reverse.1 hp, beq_iff_eq.1 hbeq⟩)

theorem keys_dictInsert_nodup (env : EnvMap) (k v : Str)
    (h : (env.map Prod.fst).Nodup) : ((dictInsert env k v).map Prod.fst).Nodup := by
  simp only [dictInsert, List.map_cons]
  rw [List.nodup_cons]
  constructor
  · intro hmem
    obtain ⟨p, hp, hfst⟩ := List.mem_map.1 hmem
    have := (List.mem_filter.1 hp).2
    simp [hfst] at this
  · exact List.Nodup.sublist ((List.filter_sublist env).map Prod.fst) h

theorem keys_buildDict_nodup (ps : List (Str × Str)) :
    ∀ env : EnvMap, (env.map Prod.fst).Nodup → ((buildDict ps env).map Prod.fst).Nodup := by
  induction ps with
  | nil => intro env h; exact h
  | cons p ps ih =>
    intro env h
    exact ih (dictInsert env p.1 p.2) (keys_dictInsert_nodup env p.1 p.2 h)

/- C7. -/

/-- C7: the mapping built by `load_env` has pairwise-distinct keys and exactly
as many entries as there are distinct keys among the file's well-formed lines;
and looking up any key returns the value of its last well-formed occurrence. -/
theorem load_env_size_and_last :
    ∀ lines : List Str,
      ((load_env lines).map Prod.fst).Nodup ∧
      (load_env lines).length = ((wfPairs lines).map Prod.fst).toFinset.card ∧
      ∀ k, (load_env lines).lookup k = lastValue k (wfPairs lines) := by
  intro lines
  have hload : load_env lines = buildDict (wfPairs lines) [] := foldl_loadStep_eq lines []
  have hlook : ∀ k, (load_env lines).lookup k = lastValue k (wfPairs lines) := by
    intro k
    rw [hload, lookup_buildDict]
    cases lastValue k (wfPairs lines) <;> simp [List.lookup, Option.or]
  have hnodup : ((load_env lines).map Prod.fst).Nodup := by
    rw [hload]; exact keys_buildDict_nodup _ [] (by simp)
  refine ⟨hnodup, ?_, hlook⟩
  have hmem : ∀ k, k ∈ (load_env lines).map Prod.fst ↔ k ∈ (wfPairs lines).map Prod.fst := by
    intro k
    rw [← not_iff_not, ← lookup_eq_none_iff_keys, ← lastValue_eq_none_iff_keys, hlook k]
  have hfin : ((load_env lines).map Prod.fst).toFinset
      = ((wfPairs lines).map Prod.fst).toFinset := by
    ext k
    simp only [List.mem_toFinset]
    exact hmem k
  calc (load_env lines).length = ((load_env lines).map Prod.fst).length := by simp
    _ = ((load_env lines).map Prod.fst).toFinset.card :=
        (List.toFinset_card_of_nodup hnodup).symm
    _ = _ := by rw [hfin]

/- Helper lemmas about call_rpc outcomes. -/

theorem call_rpc_error_iff (net : Request → NetResult) (u key : Str) (p : Payload) :
    (∃ e, call_rpc net u key p = .error e) ↔
      net (mkRequest u key p) = .transportError := by
  rcases h : net (mkRequest u key p) <;> simp [call_rpc, h]

theorem call_rpc_of_bodyOf (net : Request → NetResult) (u key : Str) (p : Payload)
    (b : Str) (h : (net (mkRequest u key p)).bodyOf = some b) :
    ∃ s, call_rpc net u key p = .ok (s, b) := by
  cases hn : net (mkRequest u key p) with
  | ok s bb =>
    rw [hn] at h
    simp only [NetResult.bodyOf, Option.some.injEq] at h
    exact ⟨s, by simp [call_rpc, hn, h]⟩
  | httpError c bb =>
    rw [hn] at h
    simp only [NetResult.bodyOf, Option.some.injEq] at h
    exact ⟨c, by simp [call_rpc, hn, h]⟩
  | transportError =>
    rw [hn] at h
    simp [NetResult.bodyOf] at h

/- C2. -/

/-- C2: when the configuration file does not exist, `main` prints the
missing-file diagnostic; when either required key is absent or empty, it
prints the missing-key diagnostic; in both cases it returns normally with
zero `call_rpc` invocations (no network call is performed). -/
theorem main_missing_config :
    (∀ net, main none net = .normal [Msg.envNotFound] 0) ∧
    (∀ (lines : List Str) (net : Request → NetResult),
        cfgReady lines = false →
        main (some lines) net = .normal [Msg.keysMissing] 0) := by
  refine ⟨fun net => rfl, fun lines net h => ?_⟩
  simp only [cfgReady, cfgUrl, cfgAnon] at h
  simp only [main]
  cases hu : truthy ((load_env lines).lookup urlKeyName) <;>
    cases ha : truthy ((load_env lines).lookup anonKeyName) <;>
    simp_all

/-- Witness for C2: with no `.env` file, and with a file defining only
`SUPABASE_URL`, `main` prints the respective diagnostic and makes no call. -/
theorem main_missing_config_witness :
    main none transportNet = .normal [Msg.envNotFound] 0 ∧
    main (some missingKeyLines) transportNet = .normal [Msg.keysMissing] 0 :=
  ⟨main_missing_config.1 transportNet,
   main_missing_config.2 missingKeyLines transportNet (by decide)⟩

/- C4. -/

/-- C4: when the configuration check passes and the server responds to
Step 1 with body `b` (normal response or HTTP error alike), `main` prints the
deployment-mismatch failure if `b` contains the function-not-found phrase and
the success acknowledgment otherwise — and in either case the Step 2
`call_rpc` invocation is still performed (two calls in total). -/
theorem main_step1_classification :
    ∀ (lines : List Str) (net : Request → NetResult) (b : Str),
      cfgReady lines = true →
      (net (mkRequest (cfgUrlStr lines) (cfgAnonStr lines) step1Payload)).bodyOf
        = some b →
      (hasSub b notFoundPhrase = true →
          Msg.funcNotDeployed ∈ (main (some lines) net).output) ∧
      (hasSub b notFoundPhrase = false →
          Msg.endpointOk ∈ (main (some lines) net).output) ∧
      (main (some lines) net).calls = 2 := by
  intro lines net b hc hb
  simp only [cfgReady, cfgUrl, cfgAnon] at hc
  rw [Bool.and_eq_true] at hc
  obtain ⟨hu, ha⟩ := hc
  simp only [cfgUrlStr, cfgAnonStr, cfgUrl, cfgAnon] at hb
  simp only [main]
  split
  next hcond => rw [hu, ha] at hcond; simp at hcond
  next hcond =>
    obtain ⟨s, hr1⟩ := call_rpc_of_bodyOf net _ _ step1Payload b hb
    rcases hr2 : call_rpc net (((load_env lines).lookup urlKeyName).getD [])
        (((load_env lines).lookup anonKeyName).getD []) step2Payload with e | sb2 <;>
      refine ⟨fun hx => ?_, fun hx => ?_, ?_⟩ <;>
      simp [hr1, RunOutcome.output, RunOutcome.calls, *]

/-- Witness for C4: a server whose Step 1 body is exactly the not-found
phrase makes `main` print the deployment-mismatch failure and still issue
both RPC calls; a body without the phrase yields the acknowledgment. -/
theorem main_step1_classification_witness :
    Msg.funcNotDeployed ∈
      (main (some demoLines) (fun _ => .httpError 404 notFoundPhrase)).output ∧
    (main (some demoLines) (fun _ => .httpError 404 notFoundPhrase)).calls = 2 ∧
    Msg.endpointOk ∈ (main (some demoLines) okNet).output := by
  have h1 := main_step1_classification demoLines
    (fun _ => .httpError 404 notFoundPhrase) notFoundPhrase (by decide) rfl
  have h2 := main_step1_classification demoLines okNet "ok".toList (by decide) rfl
  exact ⟨h1.1 (by decide), h1.2.2, h2.2.1 (by decide)⟩

/- C5. -/

/-- C5: when the configuration check passes and the server responds to both
steps, `main` classifies Step 2 by its body `b2`: if `b2` contains the
historical-stats guard phrase it prints the guard-is-active success (and not
the inconclusive warning); otherwise it prints the inconclusive warning
together with its anonymous-credential caveat (and not the success) — a third
outcome distinct from both pass and fail. -/
theorem main_step2_classification :
    ∀ (lines : List Str) (net : Request → NetResult) (b1 b2 : Str),
      cfgReady lines = true →
      (net (mkRequest (cfgUrlStr lines) (cfgAnonStr lines) step1Payload)).bodyOf
        = some b1 →
      (net (mkRequest (cfgUrlStr lines) (cfgAnonStr lines) step2Payload)).bodyOf
        = some b2 →
      (hasSub b2 guardPhrase = true →
          Msg.guardActive ∈ (main (some lines) net).output ∧
          Msg.guardInconclusive ∉ (main (some lines) net).output) ∧
      (hasSub b2 guardPhrase = false →
          Msg.guardInconclusive ∈ (main (some lines) net).output ∧
          Msg.inconclusiveReason ∈ (main (some lines) net).output ∧
          Msg.guardActive ∉ (main (some lines) net).output) := by
  intro lines net b1 b2 hc hb1 hb2
  simp only [cfgReady, cfgUrl, cfgAnon] at hc
  rw [Bool.and_eq_true] at hc
  obtain ⟨hu, ha⟩ := hc
  simp only [cfgUrlStr, cfgAnonStr, cfgUrl, cfgAnon] at hb1 hb2
  simp only [main]
  split
  next hcond => rw [hu, ha] at hcond; simp at hcond
  next hcond =>
    obtain ⟨s1, hr1⟩ := call_rpc_of_bodyOf net _ _ step1Payload b1 hb1
    obtain ⟨s2, hr2⟩ := call_rpc_of_bodyOf net _ _ step2Payload b2 hb2
    rw [hr1, hr2]
    cases hs1 : hasSub b1 notFoundPhrase <;>
      refine ⟨fun hx => ?_, fun hx => ?_⟩ <;>
      simp [RunOutcome.output, hs1, hx]

/-- Witness for C5: a server answering Step 2 with the guard phrase makes
`main` print the guard-is-active success; a server answering without it makes
`main` print the inconclusive warning and its caveat line. -/
theorem main_step2_classification_witness :
    Msg.guardActive ∈
      (main (some demoLines) (fun _ => .httpError 400 guardPhrase)).output ∧
    Msg.guardInconclusive ∈ (main (some demoLines) okNet).output ∧
    Msg.inconclusiveReason ∈ (main (some demoLines) okNet).output := by
  have h1 := main_step2_classification demoLines
    (fun _ => .httpError 400 guardPhrase) guardPhrase guardPhrase
    (by decide) rfl rfl
  have h2 := main_step2_classification demoLines okNet "ok".toList "ok".toList
    (by decide) rfl rfl
  exact ⟨(h1.1 (by decide)).1, (h2.2 (by decide)).1, (h2.2 (by decide)).2.1⟩

/- C8. -/

/-- Counterexample for C8: with a valid configuration and a network where the
Step 1 call fails at the transport level, the run does not exit normally: the
uncaught transport failure propagates out of `main` after the Step 1 header
is printed, so there is a failure branch with an unhandled fault. -/
theorem main_transport_fault_cex :
    main (some demoLines) transportNet = .fault [Msg.step1Header] 1 ∧
    (main (some demoLines) transportNet).isNormal = false := by
  constructor <;> decide

/-- C8 (amended): when no network exchange fails at the transport level,
`main` prints its diagnostics and exits normally in every branch; but a
transport-level failure is not caught: it propagates out of `main` as an
unhandled fault (on Step 1, after only the Step 1 header is printed). -/
theorem main_normal_without_transport :
    (∀ (envFile : Option (List Str)) (net : Request → NetResult),
        (∀ req, net req ≠ .transportError) →
        (main envFile net).isNormal = true) ∧
    (∀ (lines : List Str) (net : Request → NetResult),
        cfgReady lines = true →
        net (mkRequest (cfgUrlStr lines) (cfgAnonStr lines) step1Payload)
          = .transportError →
        main (some lines) net = .fault [Msg.step1Header] 1) := by
  constructor
  · intro envFile net hnet
    rcases envFile with _ | lines
    · rfl
    · simp only [main]
      split
      · rfl
      · rcases hr1 : call_rpc net (((load_env lines).lookup urlKeyName).getD [])
            (((load_env lines).lookup anonKeyName).getD []) step1Payload with e | sb
        · exact absurd ((call_rpc_error_iff net _ _ step1Payload).1 ⟨e, hr1⟩) (hnet _)
        · rcases hr2 : call_rpc net (((load_env lines).lookup urlKeyName).getD [])
              (((load_env lines).lookup anonKeyName).getD []) step2Payload with e | sb2
          · exact absurd ((call_rpc_error_iff net _ _ step2Payload).1 ⟨e, hr2⟩) (hnet _)
          · rfl
  · intro lines net hc htr
    simp only [cfgReady, cfgUrl, cfgAnon] at hc
    rw [Bool.and_eq_true] at hc
    obtain ⟨hu, ha⟩ := hc
    simp only [cfgUrlStr, cfgAnonStr, cfgUrl, cfgAnon] at htr
    simp only [main]
    split
    next hcond => rw [hu, ha] at hcond; simp at hcond
    next hcond =>
      have hr1 : call_rpc net (((load_env lines).lookup urlKeyName).getD [])
          (((load_env lines).lookup anonKeyName).getD []) step1Payload = .error () := by
        simp [call_rpc, htr]
      rw [hr1]

/-- Witness for the amended C8: a server that always responds lets `main`
exit normally; a transport failure on Step 1 ends the run as a fault. -/
theorem main_normal_without_transport_witness :
    (main (some demoLines) okNet).isNormal = true ∧
    main (some demoLines) transportNet = .fault [Msg.step1Header] 1 :=
  ⟨main_normal_without_transport.1 (some demoLines) okNet
      (fun req h => by simp [okNet] at h),
   main_normal_without_transport.2 demoLines transportNet (by decide) rfl⟩

end VFM
